import Mathlib

/-!
Verification development for the kindship-cli execution core.

This file embeds, as executable Lean definitions, the parts of the source
relevant to the execution orchestration loop and entity-execution lifecycle:

* `internal/validator/schema.go` — `ExtractJSONFromOutput` (fence selection,
  brace scan, JSON parse), together with a model of `encoding/json.Unmarshal`
  into a string-keyed map of generic values;
* `internal/executor/bash.go`, the python executor, `internal/executor/llm.go`
  — the three backends and the `limitedWriter` output cap;
* `cmd/run.go` — `executeEntity` (the single-entity lifecycle) and
  `runProcessExecution` (the Process driver loop);
* `cmd/agent.go` — the `activeResumes` deduplicated-launch discipline of the
  startup recovery scheduler, as an interleaving transition system.

External collaborators (the HTTP API, the gojsonschema library, the host
subprocess machinery) are modelled as oracles supplying their observable
answers; the control flow around them is translated from the source.
-/

namespace Kindship

/-! ## Characters used by the extractor (kept as named constants) -/

/-- The opening brace character. -/
def lbrace : Char := Char.ofNat 123

/-- The closing brace character. -/
def rbrace : Char := Char.ofNat 125

/-! ## Model of Go `encoding/json.Unmarshal` into `map[string]interface` values

Numbers are kept as their raw literal characters: Go decodes them to float64,
whose arithmetic is outside this embedding; for the equalities proved here only
the literal matters, and identical literals decode to identical float64 values.
Duplicate object keys overwrite earlier ones, as Go map assignment does. -/

/-- A decoded JSON value, as produced by Go `json.Unmarshal` into `interface`
targets (objects become string-keyed maps, modelled as association lists with
overwrite-on-duplicate insertion). -/
inductive JValue where
  | null : JValue
  | bool (b : Bool) : JValue
  | num (lit : List Char) : JValue
  | str (s : List Char) : JValue
  | arr (elems : List JValue) : JValue
  | obj (fields : List (List Char × JValue)) : JValue

/-- Insert a key into an association list, overwriting an existing binding of
the same key (Go map assignment `m[k] = v`). -/
def setField (fields : List (List Char × JValue)) (k : List Char) (v : JValue) :
    List (List Char × JValue) :=
  match fields with
  | [] => [(k, v)]
  | (k2, v2) :: rest => if k2 = k then (k, v) :: rest else (k2, v2) :: setField rest k v

/-- JSON whitespace accepted by the Go scanner between tokens. -/
def isJsonWs (c : Char) : Bool :=
  c = ' ' || c = '\t' || c = '\n' || c = '\r'

/-- Skip JSON whitespace. -/
def skipWs (cs : List Char) : List Char :=
  cs.dropWhile isJsonWs

/-- Decimal digit test. -/
def isDigit (c : Char) : Bool :=
  '0' ≤ c && c ≤ '9'

/-- Hexadecimal digit value, if any. -/
def hexDigit (c : Char) : Option Nat :=
  if '0' ≤ c && c ≤ '9' then some (c.toNat - 48)
  else if 'a' ≤ c && c ≤ 'f' then some (c.toNat - 87)
  else if 'A' ≤ c && c ≤ 'F' then some (c.toNat - 55)
  else none

/-- Parse the body of a JSON string literal (after the opening quote),
returning the decoded characters and the remainder after the closing quote.
Mirrors the Go scanner: escape sequences are decoded, raw control characters
are rejected, and running out of input is an error. -/
def parseStringBody (fuel : Nat) (cs : List Char) (acc : List Char) :
    Except String (List Char × List Char) :=
  match fuel with
  | 0 => .error "unexpected end of JSON input"
  | fuel + 1 =>
    match cs with
    | [] => .error "unexpected end of JSON input"
    | c :: rest =>
      if c = '"' then .ok (acc.reverse, rest)
      else if c = '\\' then
        match rest with
        | [] => .error "unexpected end of JSON input"
        | e :: rest2 =>
          if e = '"' then parseStringBody fuel rest2 ('"' :: acc)
          else if e = '\\' then parseStringBody fuel rest2 ('\\' :: acc)
          else if e = '/' then parseStringBody fuel rest2 ('/' :: acc)
          else if e = 'b' then parseStringBody fuel rest2 (Char.ofNat 8 :: acc)
          else if e = 'f' then parseStringBody fuel rest2 (Char.ofNat 12 :: acc)
          else if e = 'n' then parseStringBody fuel rest2 ('\n' :: acc)
          else if e = 'r' then parseStringBody fuel rest2 ('\r' :: acc)
          else if e = 't' then parseStringBody fuel rest2 ('\t' :: acc)
          else if e = 'u' then
            match rest2 with
            | h1 :: h2 :: h3 :: h4 :: rest3 =>
              match hexDigit h1, hexDigit h2, hexDigit h3, hexDigit h4 with
              | some a, some b, some c2, some d =>
                parseStringBody fuel rest3
                  (Char.ofNat (((a * 16 + b) * 16 + c2) * 16 + d) :: acc)
              | _, _, _, _ => .error "invalid character in string escape code"
            | _ => .error "unexpected end of JSON input"
          else .error "invalid character in string escape code"
      else if c.toNat < 32 then .error "invalid character in string literal"
      else parseStringBody fuel rest (c :: acc)

/-- Parse the optional exponent part of a JSON number, returning the full
literal accumulated so far and the remainder. -/
def parseExpPart (acc : List Char) (cs : List Char) :
    Except String (List Char × List Char) :=
  match cs with
  | [] => .ok (acc, [])
  | e :: rest =>
    if e = 'e' || e = 'E' then
      let signAndRest : List Char × List Char :=
        match rest with
        | s :: r2 => if s = '+' || s = '-' then ([s], r2) else ([], rest)
        | [] => ([], rest)
      let ds := signAndRest.2.takeWhile isDigit
      if ds = [] then .error "invalid character in exponent of numeric literal"
      else .ok (acc ++ e :: signAndRest.1 ++ ds, signAndRest.2.dropWhile isDigit)
    else .ok (acc, e :: rest)

/-- Parse the optional fraction part of a JSON number (then the exponent). -/
def parseFracPart (acc : List Char) (cs : List Char) :
    Except String (List Char × List Char) :=
  match cs with
  | '.' :: rest =>
    let ds := rest.takeWhile isDigit
    if ds = [] then .error "invalid character after decimal point in numeric literal"
    else parseExpPart (acc ++ '.' :: ds) (rest.dropWhile isDigit)
  | _ => parseExpPart acc cs

/-- Parse a JSON numeric literal starting at the current position, returning
the literal characters and the remainder. Leading zeros are rejected as in the
Go scanner. -/
def parseNumberLit (cs : List Char) : Except String (List Char × List Char) :=
  let negAndRest : List Char × List Char :=
    match cs with
    | c :: rest => if c = '-' then (['-'], rest) else ([], cs)
    | [] => ([], cs)
  match negAndRest.2 with
  | [] => .error "unexpected end of JSON input"
  | c :: rest =>
    if c = '0' then parseFracPart (negAndRest.1 ++ ['0']) rest
    else if isDigit c then
      let ds := rest.takeWhile isDigit
      parseFracPart (negAndRest.1 ++ c :: ds) (rest.dropWhile isDigit)
    else .error "invalid character looking for beginning of value"

mutual

/-- Parse one JSON value (after skipping leading whitespace). -/
def parseValue (fuel : Nat) (cs : List Char) : Except String (JValue × List Char) :=
  match fuel with
  | 0 => .error "unexpected end of JSON input"
  | fuel + 1 =>
    match skipWs cs with
    | [] => .error "unexpected end of JSON input"
    | c :: rest =>
      if c = '"' then
        match parseStringBody fuel rest [] with
        | .error m => .error m
        | .ok (s, rest2) => .ok (.str s, rest2)
      else if c = lbrace then parseObjectStart fuel rest
      else if c = '[' then parseArrayStart fuel rest
      else if c = 't' then
        match rest with
        | 'r' :: 'u' :: 'e' :: rest2 => .ok (.bool true, rest2)
        | _ => .error "invalid character in literal true"
      else if c = 'f' then
        match rest with
        | 'a' :: 'l' :: 's' :: 'e' :: rest2 => .ok (.bool false, rest2)
        | _ => .error "invalid character in literal false"
      else if c = 'n' then
        match rest with
        | 'u' :: 'l' :: 'l' :: rest2 => .ok (.null, rest2)
        | _ => .error "invalid character in literal null"
      else if c = '-' || isDigit c then
        match parseNumberLit (c :: rest) with
        | .error m => .error m
        | .ok (lit, rest2) => .ok (.num lit, rest2)
      else .error "invalid character looking for beginning of value"

/-- Parse an object body right after the opening brace: either an immediately
closing brace (empty object) or the first member. -/
def parseObjectStart (fuel : Nat) (cs : List Char) : Except String (JValue × List Char) :=
  match fuel with
  | 0 => .error "unexpected end of JSON input"
  | fuel + 1 =>
    match skipWs cs with
    | [] => .error "unexpected end of JSON input"
    | c :: rest =>
      if c = rbrace then .ok (.obj [], rest)
      else parseMember fuel (c :: rest) []

/-- Parse one object member (key, colon, value) and then the object tail. -/
def parseMember (fuel : Nat) (cs : List Char) (acc : List (List Char × JValue)) :
    Except String (JValue × List Char) :=
  match fuel with
  | 0 => .error "unexpected end of JSON input"
  | fuel + 1 =>
    match skipWs cs with
    | [] => .error "unexpected end of JSON input"
    | c :: rest =>
      if c = '"' then
        match parseStringBody fuel rest [] with
        | .error m => .error m
        | .ok (key, rest2) =>
          match skipWs rest2 with
          | ':' :: rest3 =>
            match parseValue fuel rest3 with
            | .error m => .error m
            | .ok (v, rest4) => parseObjectTail fuel rest4 (setField acc key v)
          | _ => .error "invalid character after object key"
      else .error "invalid character looking for beginning of object key string"

/-- Parse whatever follows an object member: a comma and another member, or
the closing brace. -/
def parseObjectTail (fuel : Nat) (cs : List Char) (acc : List (List Char × JValue)) :
    Except String (JValue × List Char) :=
  match fuel with
  | 0 => .error "unexpected end of JSON input"
  | fuel + 1 =>
    match skipWs cs with
    | [] => .error "unexpected end of JSON input"
    | c :: rest =>
      if c = ',' then parseMember fuel rest acc
      else if c = rbrace then .ok (.obj acc, rest)
      else .error "invalid character after object key:value pair"

/-- Parse an array body right after the opening bracket. -/
def parseArrayStart (fuel : Nat) (cs : List Char) : Except String (JValue × List Char) :=
  match fuel with
  | 0 => .error "unexpected end of JSON input"
  | fuel + 1 =>
    match skipWs cs with
    | [] => .error "unexpected end of JSON input"
    | c :: rest =>
      if c = ']' then .ok (.arr [], rest)
      else
        match parseValue fuel (c :: rest) with
        | .error m => .error m
        | .ok (v, rest2) => parseArrayTail fuel rest2 [v]

/-- Parse whatever follows an array element: a comma and another element, or
the closing bracket. -/
def parseArrayTail (fuel : Nat) (cs : List Char) (acc : List JValue) :
    Except String (JValue × List Char) :=
  match fuel with
  | 0 => .error "unexpected end of JSON input"
  | fuel + 1 =>
    match skipWs cs with
    | [] => .error "unexpected end of JSON input"
    | c :: rest =>
      if c = ',' then
        match parseValue fuel rest with
        | .error m => .error m
        | .ok (v, rest2) => parseArrayTail fuel rest2 (acc ++ [v])
      else if c = ']' then .ok (.arr acc, rest)
      else .error "invalid character after array element"

end

/-- Model of Go `json.Unmarshal(data, &m)` for `m : map[string]interface`:
the data must be one syntactically valid JSON value followed only by
whitespace, and that value must be an object (a top-level `null` leaves the
map nil without error; it is unreachable from the extractor, whose candidate
substrings always begin at an opening brace). -/
def jsonUnmarshalObject (data : List Char) :
    Except String (List (List Char × JValue)) :=
  match parseValue (4 * data.length + 8) data with
  | .error m => .error m
  | .ok (v, rest) =>
    if skipWs rest ≠ [] then .error "invalid character after top-level value"
    else
      match v with
      | .obj fields => .ok fields
      | .null => .ok []
      | _ => .error "json: cannot unmarshal value into Go value of type map"

/-! ## String helpers mirroring the Go `strings` package -/

/-- Does `sub` occur at the head of `s`? (`strings.HasPrefix`). -/
def leadsWith : List Char → List Char → Bool
  | [], _ => true
  | _ :: _, [] => false
  | a :: as, b :: bs => a = b && leadsWith as bs

/-- Auxiliary scan for `strIndex`. -/
def strIndexAux (sub : List Char) : List Char → Nat → Option Nat
  | s, i =>
    if leadsWith sub s then some i
    else
      match s with
      | [] => none
      | _ :: rest => strIndexAux sub rest (i + 1)

/-- Index of the first occurrence of `sub` in `s` (`strings.Index`), `none`
standing for Go's `-1`. -/
def strIndex (s sub : List Char) : Option Nat :=
  strIndexAux sub s 0

/-- The character class trimmed by Go `strings.TrimSpace` (`unicode.IsSpace`). -/
def goIsSpace (c : Char) : Bool :=
  c = ' ' || c = '\t' || c = '\n' || Char.ofNat 11 = c || Char.ofNat 12 = c || c = '\r' ||
  c.toNat = 133 || c.toNat = 160 || c.toNat = 5760 ||
  (8192 ≤ c.toNat && c.toNat ≤ 8202) ||
  c.toNat = 8232 || c.toNat = 8233 || c.toNat = 8239 || c.toNat = 8287 || c.toNat = 12288

/-- Go `strings.TrimSpace`. -/
def trimSpace (s : List Char) : List Char :=
  ((s.dropWhile goIsSpace).reverse.dropWhile goIsSpace).reverse

/-! ## ExtractJSONFromOutput (internal/validator/schema.go) -/

/-- Errors returned by `ExtractJSONFromOutput`, carrying the source's message
constructors: no opening brace, no balancing brace, or a wrapped parse error. -/
inductive ExtractError where
  | noJsonObjectFound : ExtractError
  | noMatchingClosingBrace : ExtractError
  | parseFailed (msg : String) : ExtractError
deriving DecidableEq

/-- The Go error message for each extraction error. -/
def extractErrorMessage : ExtractError → String
  | .noJsonObjectFound => "no JSON object found in output"
  | .noMatchingClosingBrace => "no matching closing brace found"
  | .parseFailed m => "failed to parse JSON: " ++ m

/-- The fence-selection preamble of `ExtractJSONFromOutput`: trim the text,
then prefer the contents of a fence tagged `json`, else of a generic fence
with an optional language line, else the whole text. -/
def selectRegion (s0 : List Char) : List Char :=
  let s := trimSpace s0
  match strIndex s ("```json".data) with
  | some j0 =>
    let jsonStart := j0 + 7
    match strIndex (s.drop jsonStart) ("```".data) with
    | some jsonEnd => trimSpace ((s.drop jsonStart).take jsonEnd)
    | none => s
  | none =>
    match strIndex s ("```".data) with
    | some c0 =>
      let codeStart0 := c0 + 3
      let codeStart :=
        match strIndex (s.drop codeStart0) ("\n".data) with
        | some nl => codeStart0 + nl + 1
        | none => codeStart0
      match strIndex (s.drop codeStart) ("```".data) with
      | some codeEnd => trimSpace ((s.drop codeStart).take codeEnd)
      | none => s
    | none => s

/-- The brace-depth scan of `ExtractJSONFromOutput`: starting at index `i`
with running count `count`, return the index one past the brace that first
balances the count to zero. Counts every raw brace character, including those
inside string literals, as the source does. -/
def braceScan : List Char → Nat → Int → Option Nat
  | [], _, _ => none
  | c :: rest, i, count =>
    if c = lbrace then braceScan rest (i + 1) (count + 1)
    else if c = rbrace then
      if count - 1 = 0 then some (i + 1) else braceScan rest (i + 1) (count - 1)
    else braceScan rest (i + 1) count

/-- The substring of the (region-selected) output handed to the JSON parser:
from the first opening brace to the brace that balances it. -/
def extractCandidate (stdout : String) : Except ExtractError (List Char) :=
  let s := selectRegion stdout.data
  match strIndex s [lbrace] with
  | none => .error .noJsonObjectFound
  | some braceStart =>
    match braceScan (s.drop braceStart) braceStart 0 with
    | none => .error .noMatchingClosingBrace
    | some braceEnd => .ok ((s.drop braceStart).take (braceEnd - braceStart))

/-- Translation of `ExtractJSONFromOutput` from `internal/validator/schema.go`: select the
region, find the first brace and its balancing partner, and unmarshal the
substring between them as a JSON object. -/
def ExtractJSONFromOutput (stdout : String) :
    Except ExtractError (List (List Char × JValue)) :=
  match extractCandidate stdout with
  | .error e => .error e
  | .ok jsonStr =>
    match jsonUnmarshalObject jsonStr with
    | .error m => .error (.parseFailed m)
    | .ok fields => .ok fields

/-! ## Execution backends (internal/executor) -/

/-- The outcome of waiting on a launched subprocess, as classified by the Go
code from `cmd.Run()`: a nil error (exit status zero), an `exec.ExitError`
carrying an exit code (`-1` when signalled), or any other launch/copy error. -/
inductive WaitOutcome where
  | exitZero : WaitOutcome
  | exitError (code : Int) : WaitOutcome
  | launchFailed (msg : String) : WaitOutcome
deriving DecidableEq

/-- The outcome of a subprocess run under the shared 10-minute deadline
(`context.WithTimeout`): either the wait finished, or the deadline fired. -/
inductive CmdOutcome where
  | finished (w : WaitOutcome) : CmdOutcome
  | timedOut : CmdOutcome
deriving DecidableEq

/-- Translation of `ExecutionResult` from `internal/executor/llm.go`. The Go `Error error`
field is modelled as an optional message, `none` standing for nil. -/
structure ExecutionResult where
  success : Bool
  stdout : String
  stderr : String
  exitCode : Int
  error : Option String
deriving DecidableEq

/-- The exit-code classification shared by the three executors: nil error is
exit 0, an `ExitError` yields its code, any other error yields 1. -/
def waitExitCode : WaitOutcome → Int
  | .exitZero => 0
  | .exitError code => code
  | .launchFailed _ => 1

/-- The error value paired with each wait outcome (an `ExitError` renders as
Go's `exit status N`). -/
def waitErrMsg : WaitOutcome → Option String
  | .exitZero => none
  | .exitError code => some ("exit status " ++ toString code)
  | .launchFailed m => some m

/-- Translation of `ExecuteBashWithContext` from `internal/executor/bash.go`. The subprocess
itself is the oracle (`outcome` with the captured, already-capped streams);
the translated logic is the missing-code fast path, the timeout sentinel 124,
the exit-code classification, and `Success: exitCode == 0`. -/
def ExecuteBashWithContext (code : Option String) (outcome : CmdOutcome)
    (capturedOut capturedErr : String) : ExecutionResult :=
  match code with
  | none =>
    { success := false, stdout := "", stderr := "", exitCode := 1,
      error := some "no code provided for BASH execution" }
  | some codeStr =>
    if codeStr = "" then
      { success := false, stdout := "", stderr := "", exitCode := 1,
        error := some "no code provided for BASH execution" }
    else
      match outcome with
      | .timedOut =>
        { success := false, stdout := capturedOut, stderr := capturedErr, exitCode := 124,
          error := some "execution timed out after 10m0s" }
      | .finished w =>
        { success := decide (waitExitCode w = 0), stdout := capturedOut,
          stderr := capturedErr, exitCode := waitExitCode w, error := waitErrMsg w }

/-- Translation of `ExecutePythonWithContext` (python executor): identical control flow to
the bash variant, substituting the interpreter invocation. -/
def ExecutePythonWithContext (code : Option String) (outcome : CmdOutcome)
    (capturedOut capturedErr : String) : ExecutionResult :=
  match code with
  | none =>
    { success := false, stdout := "", stderr := "", exitCode := 1,
      error := some "no code provided for PYTHON execution" }
  | some codeStr =>
    if codeStr = "" then
      { success := false, stdout := "", stderr := "", exitCode := 1,
        error := some "no code provided for PYTHON execution" }
    else
      match outcome with
      | .timedOut =>
        { success := false, stdout := capturedOut, stderr := capturedErr, exitCode := 124,
          error := some "execution timed out after 10m0s" }
      | .finished w =>
        { success := decide (waitExitCode w = 0), stdout := capturedOut,
          stderr := capturedErr, exitCode := waitExitCode w, error := waitErrMsg w }

/-- Translation of `ExecuteLLM` from `internal/executor/llm.go`: invokes the reasoning-agent
tool (the prompt synthesis does not affect the result shape) with no timeout
branch and no missing-code check; same exit-code classification. -/
def ExecuteLLM (w : WaitOutcome) (capturedOut capturedErr : String) : ExecutionResult :=
  { success := decide (waitExitCode w = 0), stdout := capturedOut,
    stderr := capturedErr, exitCode := waitExitCode w, error := waitErrMsg w }

/-! ## limitedWriter (internal/executor/bash.go) -/

/-- The output cap: 1 MiB. -/
def maxOutputBytes : Nat := 1 <<< 20

/-- Translation of `limitedWriter`: wraps a byte buffer and stops writing after `limit`
bytes. Bytes are modelled as `Nat`. -/
structure limitedWriter where
  buf : List Nat
  limit : Nat

/-- The value returned by one `Write` call: the updated writer, the reported
byte count, and the error (always nil: excess bytes are discarded silently,
and `bytes.Buffer.Write` never fails). -/
structure WriteReturn where
  w : limitedWriter
  n : Nat
  err : Option String

/-- Translation of `limitedWriter.Write`: if the buffer is full, report the whole chunk as
consumed; otherwise truncate the chunk to the remaining room and append it. -/
def limitedWriter.write (w : limitedWriter) (p : List Nat) : WriteReturn :=
  let remaining : Int := (w.limit : Int) - (w.buf.length : Int)
  if remaining ≤ 0 then
    { w := w, n := p.length, err := none }
  else
    let p2 := if (p.length : Int) > remaining then p.take remaining.toNat else p
    { w := { w with buf := w.buf ++ p2 }, n := p2.length, err := none }

/-- The cumulative effect of a sequence of `Write` calls. -/
def writeAll (w : limitedWriter) (ps : List (List Nat)) : limitedWriter :=
  ps.foldl (fun acc p => (acc.write p).w) w

/-! ## API data model (internal/api/models.go) -/

/-- Execution-mode string constant. -/
def ExecutionModeLLMReasoning : String := "LLM_REASONING"

/-- Execution-mode string constant. -/
def ExecutionModePythonSandbox : String := "PYTHON_SANDBOX"

/-- Execution-mode string constant. -/
def ExecutionModeHybrid : String := "HYBRID"

/-- Execution-mode string constant. -/
def ExecutionModeBash : String := "BASH"

/-- Execution-mode string constant. -/
def ExecutionModePython : String := "PYTHON"

/-- Execution-mode string constant. -/
def ExecutionModeAskUser : String := "ASK_USER"

/-- The `ExecutionAttemptStatus` constants (RUNNING, SUCCESS, FAILED, ABANDONED). -/
inductive AttemptStatus where
  | running : AttemptStatus
  | success : AttemptStatus
  | failed : AttemptStatus
  | abandoned : AttemptStatus
deriving DecidableEq

/-- The `ValidationOutcome` constants (PASS, FAIL, WARN, COUNTERFACTUAL, PARTIAL). -/
inductive ValidationOutcome where
  | pass : ValidationOutcome
  | fail : ValidationOutcome
  | warn : ValidationOutcome
  | counterfactual : ValidationOutcome
  | partialOutcome : ValidationOutcome
deriving DecidableEq

/-- The `ValidationSeverity` constants (INFO, WARNING, CRITICAL). -/
inductive ValidationSeverity where
  | info : ValidationSeverity
  | warning : ValidationSeverity
  | critical : ValidationSeverity
deriving DecidableEq

/-- Translation of `ValidationRecord` (the `Actual` payload, an arbitrary JSON-ish map used
only for display, is not modelled). -/
structure ValidationRecord where
  validationType : String
  outcome : ValidationOutcome
  severity : ValidationSeverity
  target : String
  failureReason : Option String := none

/-- The entity fields read by the lifecycle. The input/output schemas are
arbitrary JSON documents consumed only by the external gojsonschema library;
the lifecycle branches only on whether they are non-empty, so they are
modelled by their presence flags. -/
structure PlanningEntity where
  executionMode : String
  code : Option String
  inputSchemaPresent : Bool
  outputSchemaPresent : Bool

/-- The dependency-satisfaction summary returned with a fetched entity. -/
structure DependenciesStatus where
  allMet : Bool
  pending : List String

/-- The `FetchEntityForExecution` response (resolved inputs feed only the external
validator and the executor environment, both oracles here). -/
structure EntityFetchResponse where
  entity : PlanningEntity
  dependenciesStatus : DependenciesStatus

/-- The `StartExecution` response. -/
structure ExecutionStartResponse where
  executionID : String
  attemptNumber : Nat

/-- Captured outputs sent with a completion (metrics carry the exit code; the
wall-clock duration metric is not modelled). -/
structure ExecutionOutputs where
  stdout : String
  stderr : String
  exitCodeMetric : Int
  structured : Option (List (List Char × JValue)) := none

/-- Translation of `ExecutionCompleteRequest`. -/
structure ExecutionCompleteRequest where
  status : AttemptStatus
  outputs : Option ExecutionOutputs := none
  failureReason : Option String := none
  validationRecords : List ValidationRecord := []

/-! ## Entity execution lifecycle (cmd/run.go executeEntity) -/

/-- One API call issued by the lifecycle, recorded in order. -/
inductive ApiCall where
  | fetchEntityForExecution (entityID : String) : ApiCall
  | startExecution (entityID : String) (mode : String) (agentID : String) : ApiCall
  | completeExecution (executionID : String) (req : ExecutionCompleteRequest) : ApiCall

/-- The `(bool, error)` return contract of `executeEntity`: ordinary terminal
outcome, the distinguished `ErrAskUserSkipped` signal, or an infrastructure
error. -/
inductive ExecOutcome where
  | ok (success : Bool) : ExecOutcome
  | askUserSkipped : ExecOutcome
  | infraError (msg : String) : ExecOutcome

/-- Oracle answers from the external collaborators consulted by one lifecycle
run: the HTTP API (fetch, start, complete), the gojsonschema validator
(`none` meaning valid), and the dispatched subprocess. -/
structure LifecycleOracle where
  fetch : Except String EntityFetchResponse
  inputSchemaVerdict : Option String
  start : Except String ExecutionStartResponse
  cmdOutcome : CmdOutcome
  llmOutcome : WaitOutcome
  capturedStdout : String
  capturedStderr : String
  outputSchemaVerdict : Option String
  complete : Except String Unit

/-- The mode-switch dispatch of `executeEntity` step 4: `none` is the
`default:` branch (unknown execution mode). `PYTHON_SANDBOX` is the legacy
alias for the python variant and `HYBRID` reuses the LLM variant. -/
def dispatchExecution (entity : PlanningEntity) (o : LifecycleOracle) :
    Option ExecutionResult :=
  if entity.executionMode = ExecutionModeLLMReasoning then
    some (ExecuteLLM o.llmOutcome o.capturedStdout o.capturedStderr)
  else if entity.executionMode = ExecutionModeBash then
    some (ExecuteBashWithContext entity.code o.cmdOutcome o.capturedStdout o.capturedStderr)
  else if entity.executionMode = ExecutionModePython then
    some (ExecutePythonWithContext entity.code o.cmdOutcome o.capturedStdout o.capturedStderr)
  else if entity.executionMode = ExecutionModePythonSandbox then
    some (ExecutePythonWithContext entity.code o.cmdOutcome o.capturedStdout o.capturedStderr)
  else if entity.executionMode = ExecutionModeHybrid then
    some (ExecuteLLM o.llmOutcome o.capturedStdout o.capturedStderr)
  else none

/-- Step 4b of `executeEntity`: when the backend succeeded and an output
schema is present, try extraction; an extraction failure yields a
WARN-outcome/WARNING-severity record and no structured output; a schema
validation failure (external verdict `some msg`) yields a
FAIL-outcome/WARNING-severity record, keeping the extracted output; a pass
yields a PASS/INFO record. -/
def outputSchemaStep (result : ExecutionResult) (outputSchemaPresent : Bool)
    (schemaVerdict : Option String) :
    Option (List (List Char × JValue)) × Option ValidationRecord :=
  if result.success && outputSchemaPresent then
    match ExtractJSONFromOutput result.stdout with
    | .error e =>
      (none, some { validationType := "OUTPUT_SCHEMA", outcome := .warn,
                    severity := .warning, target := "output_schema",
                    failureReason :=
                      some ("Failed to extract structured output: " ++ extractErrorMessage e) })
    | .ok extracted =>
      match schemaVerdict with
      | some msg =>
        (some extracted, some { validationType := "OUTPUT_SCHEMA", outcome := .fail,
                                severity := .warning, target := "output_schema",
                                failureReason := some msg })
      | none =>
        (some extracted, some { validationType := "OUTPUT_SCHEMA", outcome := .pass,
                                severity := .info, target := "output_schema" })
  else (none, none)

/-- Step 5 of `executeEntity`: build the completion request. Terminal status
is SUCCESS exactly when the backend reported success; otherwise FAILED with a
failure reason built from the exit code and error, a FAIL/CRITICAL completion
record, and no structured output. -/
def buildCompleteRequest (result : ExecutionResult)
    (structuredOutput : Option (List (List Char × JValue)))
    (outputValidationRecord : Option ValidationRecord) : ExecutionCompleteRequest :=
  if result.success then
    { status := .success,
      outputs := some { stdout := result.stdout, stderr := result.stderr,
                        exitCodeMetric := result.exitCode, structured := structuredOutput },
      failureReason := none,
      validationRecords :=
        [{ validationType := "OUTPUT", outcome := .pass, severity := .info,
           target := "execution_completion" }] ++
        (match outputValidationRecord with | some r => [r] | none => []) }
  else
    let failureMsg := "Execution failed with exit code " ++ toString result.exitCode ++
      (match result.error with | some e => ": " ++ e | none => "")
    { status := .failed,
      outputs := some { stdout := result.stdout, stderr := result.stderr,
                        exitCodeMetric := result.exitCode, structured := none },
      failureReason := some failureMsg,
      validationRecords :=
        [{ validationType := "OUTPUT", outcome := .fail, severity := .critical,
           target := "execution_completion", failureReason := some failureMsg }] }

/-- Translation of `executeEntity` from `cmd/run.go`: fetch, dependency check, input-schema
check, start, the ASK_USER non-blocking return, backend dispatch, output
validation, and completion reporting. Returns the ordered API-call trace and
the `(bool, error)` outcome. -/
def executeEntity (entityID agentID : String) (o : LifecycleOracle) :
    List ApiCall × ExecOutcome :=
  let fetchTrace : List ApiCall := [.fetchEntityForExecution entityID]
  match o.fetch with
  | .error m => (fetchTrace, .infraError ("failed to fetch entity: " ++ m))
  | .ok resp =>
    if !resp.dependenciesStatus.allMet then
      (fetchTrace, .infraError
        ("dependencies not met: " ++ String.intercalate ", " resp.dependenciesStatus.pending))
    else
      match (if resp.entity.inputSchemaPresent then o.inputSchemaVerdict else none) with
      | some msg => (fetchTrace, .infraError ("input validation failed: " ++ msg))
      | none =>
        let startTrace := fetchTrace ++
          [.startExecution entityID resp.entity.executionMode agentID]
        match o.start with
        | .error m => (startTrace, .infraError ("failed to start execution: " ++ m))
        | .ok startResp =>
          if resp.entity.executionMode = ExecutionModeAskUser then
            (startTrace, .askUserSkipped)
          else
            match dispatchExecution resp.entity o with
            | none =>
              (startTrace, .infraError
                ("unknown execution mode: " ++ resp.entity.executionMode))
            | some result =>
              let step4b := outputSchemaStep result resp.entity.outputSchemaPresent
                o.outputSchemaVerdict
              let completeReq := buildCompleteRequest result step4b.1 step4b.2
              let fullTrace := startTrace ++
                [.completeExecution startResp.executionID completeReq]
              match o.complete with
              | .error m => (fullTrace, .infraError ("failed to complete execution: " ++ m))
              | .ok _ => (fullTrace, .ok result.success)

/-! ## Process execution driver (cmd/run.go runProcessExecution) -/

/-- The error half of a child `executeEntity` return, when non-nil: the
distinguished `ErrAskUserSkipped` signal or an ordinary error message. -/
inductive ChildExecError where
  | askUserSkipped : ChildExecError
  | execError (msg : String) : ChildExecError
deriving DecidableEq

/-- The `(success, err)` pair returned by `executeEntity` for one child. -/
structure ChildResult where
  success : Bool
  err : Option ChildExecError
deriving DecidableEq

/-- One iteration's answer from `FetchNextTaskForProcess`, together with the
child execution it leads to: a fetch error, exhaustion, or a task. -/
inductive LoopFetch where
  | fetchError (msg : String) : LoopFetch
  | noTask : LoopFetch
  | task (id : String) (res : ChildResult) : LoopFetch
deriving DecidableEq

/-- The driver's loop-local state: the aggregate counters it owns, the list
of dispatched child ids, and the number of `FetchNextTaskForProcess` calls. -/
structure ProcessLoopState where
  tasksExecuted : Nat
  lastError : Option String
  interrupted : Bool
  executed : List String
  fetches : Nat
deriving DecidableEq

/-- The completion request built for the Process run on loop exit (its
metrics always carry `tasks_executed` and `interrupted`). -/
structure ProcessCompleteRequest where
  status : AttemptStatus
  tasksExecuted : Nat
  interrupted : Bool
  failureReason : Option String
deriving DecidableEq

/-- The driver's reaction to one child `executeEntity` return: an error other
than the ask-user skip becomes the last error (the loop continues), otherwise
a successful child increments the count. -/
def applyChild (st : ProcessLoopState) (res : ChildResult) : ProcessLoopState :=
  match res.err with
  | some .askUserSkipped =>
    if res.success then { st with tasksExecuted := st.tasksExecuted + 1 } else st
  | some (.execError m) => { st with lastError := some m }
  | none =>
    if res.success then { st with tasksExecuted := st.tasksExecuted + 1 } else st

/-- The Process execution loop. `cancel = some k` means the signal-driven
context cancellation is observed at the top of iteration `k` (counting from
zero); `none` means no cancellation arrives. Each iteration checks
cancellation, fetches the next scoped task (a fetch error or exhaustion
breaks the loop), and dispatches it through `applyChild` without stopping on
child failures. -/
def processLoop : Option Nat → List LoopFetch → ProcessLoopState → ProcessLoopState
  | some 0, _, st => { st with interrupted := true, lastError := some "context canceled" }
  | _, [], st => st
  | cancel, f :: rest, st =>
    let st1 := { st with fetches := st.fetches + 1 }
    match f with
    | .fetchError m => { st1 with lastError := some m }
    | .noTask => st1
    | .task id res =>
      processLoop (cancel.map (fun k => k - 1)) rest
        (applyChild { st1 with executed := st1.executed ++ [id] } res)

/-- Translation of `runProcessExecution` (loop and completion): run the loop from the fresh
state, then complete the Process run with ABANDONED if interrupted, FAILED if
a last error was recorded, SUCCESS otherwise. -/
def runProcessExecution (cancel : Option Nat) (fetches : List LoopFetch) :
    ProcessLoopState × ProcessCompleteRequest :=
  let st := processLoop cancel fetches
    { tasksExecuted := 0, lastError := none, interrupted := false, executed := [], fetches := 0 }
  let req : ProcessCompleteRequest :=
    if st.interrupted then
      { status := .abandoned, tasksExecuted := st.tasksExecuted, interrupted := st.interrupted,
        failureReason := some "Process execution interrupted by signal" }
    else
      match st.lastError with
      | some m =>
        { status := .failed, tasksExecuted := st.tasksExecuted, interrupted := st.interrupted,
          failureReason := some m }
      | none =>
        { status := .success, tasksExecuted := st.tasksExecuted, interrupted := st.interrupted,
          failureReason := none }
  (st, req)

/-! ## Startup recovery deduplication (cmd/agent.go activeResumes)

The `sync.Map` keyed by run identifier is modelled as an interleaving
transition system: `attempt` is the startup loop's `LoadOrStore` (launch the
background resumption only if the identifier is absent), and `finish` is the
deferred `Delete` executed when a launched resumption completes. A `finish`
event is only enabled for an identifier currently in the set, since each
launched goroutine deletes exactly the identifier it stored. -/

/-- An event of the resume scheduler. -/
inductive ResumeEvent where
  | attempt (runId : String) : ResumeEvent
  | finish (runId : String) : ResumeEvent
deriving DecidableEq

/-- The shared state: the deduplication set plus event logs (identifiers of
launched and finished resumptions, in order). -/
structure ResumeState where
  active : List String
  launched : List String
  finished : List String
deriving DecidableEq

/-- The initial state: empty set, nothing launched. -/
def initResumeState : ResumeState :=
  { active := [], launched := [], finished := [] }

/-- Apply one event: `attempt` skips when the identifier is already active
(`LoadOrStore` found it), else inserts it and records a launch; `finish`
removes the identifier and records the completion. -/
def resumeStep (s : ResumeState) : ResumeEvent → ResumeState
  | .attempt id =>
    if id ∈ s.active then s
    else { s with active := id :: s.active, launched := s.launched ++ [id] }
  | .finish id =>
    { s with active := s.active.erase id, finished := s.finished ++ [id] }

/-- Whether an event is enabled in a state: finishes require the identifier
to be active (a resumption can only complete while it is running). -/
def eventOk (s : ResumeState) : ResumeEvent → Bool
  | .attempt _ => true
  | .finish id => decide (id ∈ s.active)

/-- Run a sequence of events from a state. -/
def runResumeFrom (s : ResumeState) (es : List ResumeEvent) : ResumeState :=
  es.foldl resumeStep s

/-- Run a sequence of events from the initial state. -/
def runResume (es : List ResumeEvent) : ResumeState :=
  runResumeFrom initResumeState es

/-- A sequence of events is a valid interleaving when each event is enabled
in the state it fires from. -/
def validFrom (s : ResumeState) : List ResumeEvent → Bool
  | [] => true
  | e :: es => eventOk s e && validFrom (resumeStep s e) es

/-- A valid interleaving from the initial state. -/
def validResumeTrace (es : List ResumeEvent) : Bool :=
  validFrom initResumeState es

/-! ## Theorems -/

section ExecutorTheorems

/-- C9: for every `ExecutionResult` produced by `ExecuteBashWithContext`,
`ExecutePythonWithContext` or `ExecuteLLM`, the `Success` flag is true iff
`ExitCode` is zero; in particular the timeout result (124), the missing-code
results and the launch-failure results all carry `Success = false`. -/
theorem C9_success_iff_exit_zero :
    (∀ code oc out err, ((ExecuteBashWithContext code oc out err).success = true ↔
      (ExecuteBashWithContext code oc out err).exitCode = 0)) ∧
    (∀ code oc out err, ((ExecutePythonWithContext code oc out err).success = true ↔
      (ExecutePythonWithContext code oc out err).exitCode = 0)) ∧
    (∀ w out err, ((ExecuteLLM w out err).success = true ↔
      (ExecuteLLM w out err).exitCode = 0)) ∧
    (∀ c out err, c ≠ "" →
      (ExecuteBashWithContext (some c) .timedOut out err).exitCode = 124 ∧
      (ExecuteBashWithContext (some c) .timedOut out err).success = false ∧
      (ExecutePythonWithContext (some c) .timedOut out err).exitCode = 124 ∧
      (ExecutePythonWithContext (some c) .timedOut out err).success = false) ∧
    (∀ oc out err,
      (ExecuteBashWithContext none oc out err).exitCode = 1 ∧
      (ExecuteBashWithContext none oc out err).success = false ∧
      (ExecuteBashWithContext (some "") oc out err).exitCode = 1 ∧
      (ExecuteBashWithContext (some "") oc out err).success = false ∧
      (ExecutePythonWithContext none oc out err).exitCode = 1 ∧
      (ExecutePythonWithContext none oc out err).success = false ∧
      (ExecutePythonWithContext (some "") oc out err).exitCode = 1 ∧
      (ExecutePythonWithContext (some "") oc out err).success = false) ∧
    (∀ c out err m, c ≠ "" →
      (ExecuteBashWithContext (some c) (.finished (.launchFailed m)) out err).exitCode = 1 ∧
      (ExecuteBashWithContext (some c) (.finished (.launchFailed m)) out err).success = false ∧
      (ExecutePythonWithContext (some c) (.finished (.launchFailed m)) out err).exitCode = 1 ∧
      (ExecutePythonWithContext (some c) (.finished (.launchFailed m)) out err).success = false ∧
      (ExecuteLLM (.launchFailed m) out err).exitCode = 1 ∧
      (ExecuteLLM (.launchFailed m) out err).success = false) := by
  refine ⟨?_, ?_, ?_, ?_, ?_, ?_⟩
  · intro code oc out err
    cases code with
    | none => simp [ExecuteBashWithContext]
    | some c =>
      by_cases hc : c = "" <;>
        simp only [ExecuteBashWithContext, hc, if_true, if_false, ite_true, ite_false]
      · simp
      · cases oc with
        | timedOut => simp
        | finished w => cases w <;> simp [waitExitCode]
  · intro code oc out err
    cases code with
    | none => simp [ExecutePythonWithContext]
    | some c =>
      by_cases hc : c = "" <;>
        simp only [ExecutePythonWithContext, hc, if_true, if_false, ite_true, ite_false]
      · simp
      · cases oc with
        | timedOut => simp
        | finished w => cases w <;> simp [waitExitCode]
  · intro w out err
    cases w <;> simp [ExecuteLLM, waitExitCode]
  · intro c out err hc
    simp [ExecuteBashWithContext, ExecutePythonWithContext, hc]
  · intro oc out err
    simp [ExecuteBashWithContext, ExecutePythonWithContext]
  · intro c out err m hc
    simp [ExecuteBashWithContext, ExecutePythonWithContext, ExecuteLLM, hc,
      waitExitCode, waitErrMsg]

/-- Witness for C9 at concrete inputs, discharging the nonempty-code
hypotheses. -/
theorem C9_success_iff_exit_zero_witness :
    ("x" ≠ "" ∧
      (ExecuteBashWithContext (some "x") .timedOut "o" "e").exitCode = 124 ∧
      (ExecuteBashWithContext (some "x") .timedOut "o" "e").success = false ∧
      (ExecutePythonWithContext (some "x") .timedOut "o" "e").exitCode = 124 ∧
      (ExecutePythonWithContext (some "x") .timedOut "o" "e").success = false) ∧
    ("x" ≠ "" ∧
      (ExecuteBashWithContext (some "x") (.finished (.launchFailed "boom")) "o" "e").exitCode = 1 ∧
      (ExecuteBashWithContext (some "x") (.finished (.launchFailed "boom")) "o" "e").success = false ∧
      (ExecutePythonWithContext (some "x") (.finished (.launchFailed "boom")) "o" "e").exitCode = 1 ∧
      (ExecutePythonWithContext (some "x") (.finished (.launchFailed "boom")) "o" "e").success = false ∧
      (ExecuteLLM (.launchFailed "boom") "o" "e").exitCode = 1 ∧
      (ExecuteLLM (.launchFailed "boom") "o" "e").success = false) := by
  have hx : ("x" : String) ≠ "" := by decide
  exact ⟨⟨hx, C9_success_iff_exit_zero.2.2.2.1 "x" "o" "e" hx⟩,
         ⟨hx, C9_success_iff_exit_zero.2.2.2.2.2 "x" "o" "e" "boom" hx⟩⟩

end ExecutorTheorems

section LimitedWriterTheorems

/-- One `Write` call never reports an error. -/
theorem limitedWriter_write_err (w : limitedWriter) (p : List Nat) :
    (w.write p).err = none := by
  simp only [limitedWriter.write]
  split <;> rfl

/-- One `Write` call leaves the limit unchanged. -/
theorem limitedWriter_write_limit (w : limitedWriter) (p : List Nat) :
    ((w.write p).w).limit = w.limit := by
  simp only [limitedWriter.write]
  split <;> rfl

/-- Taking `n` again after appending to a first take of `n` is the same as
taking `n` of the full concatenation. -/
theorem take_append_take {α : Type} (n : Nat) (l t : List α) :
    (l.take n ++ t).take n = (l ++ t).take n := by
  rcases le_or_lt l.length n with h | h
  · rw [List.take_of_length_le h]
  · rw [List.take_append_eq_append_take, List.take_append_eq_append_take,
      List.take_take, List.length_take]
    have h1 : n ⊓ n = n := min_self n
    have h2 : n ⊓ l.length = n := by omega
    rw [h1, h2, Nat.sub_self]
    have h3 : n - l.length = 0 := by omega
    rw [h3]

/-- One `Write` keeps the buffer equal to the `limit`-prefix of everything
written so far. -/
theorem limitedWriter_write_buf (w : limitedWriter) (p : List Nat)
    (h : w.buf.length ≤ w.limit) :
    ((w.write p).w).buf = (w.buf ++ p).take w.limit := by
  simp only [limitedWriter.write]
  by_cases h0 : (w.limit : Int) - (w.buf.length : Int) ≤ 0
  · have hlen : w.buf.length = w.limit := by omega
    rw [if_pos h0, ← hlen, List.take_left]
  · rw [if_neg h0]
    rw [List.take_append_eq_append_take, List.take_of_length_le h]
    by_cases hp : (p.length : Int) > (w.limit : Int) - (w.buf.length : Int)
    · rw [if_pos hp]
      have htn : ((w.limit : Int) - (w.buf.length : Int)).toNat = w.limit - w.buf.length := by
        omega
      rw [htn]
    · rw [if_neg hp]
      have hple : p.length ≤ w.limit - w.buf.length := by omega
      rw [List.take_of_length_le hple]

/-- A sequence of writes keeps the buffer equal to the `limit`-prefix of the
concatenation of everything written, for any writer whose buffer respects its
limit. -/
theorem writeAll_buf (ps : List (List Nat)) (w : limitedWriter)
    (h : w.buf.length ≤ w.limit) :
    (writeAll w ps).buf = (w.buf ++ ps.flatten).take w.limit := by
  induction ps generalizing w with
  | nil =>
    simp only [writeAll, List.foldl_nil, List.flatten_nil, List.append_nil]
    rw [List.take_of_length_le h]
  | cons p ps ih =>
    have hstep := limitedWriter_write_buf w p h
    have hlim := limitedWriter_write_limit w p
    have hlen : ((w.write p).w).buf.length ≤ ((w.write p).w).limit := by
      rw [hstep, hlim, List.length_take]
      omega
    calc (writeAll w (p :: ps)).buf
        = (writeAll ((w.write p).w) ps).buf := by simp [writeAll]
      _ = (((w.write p).w).buf ++ ps.flatten).take ((w.write p).w).limit := ih _ hlen
      _ = (((w.buf ++ p).take w.limit) ++ ps.flatten).take w.limit := by rw [hstep, hlim]
      _ = ((w.buf ++ p) ++ ps.flatten).take w.limit := take_append_take _ _ _
      _ = (w.buf ++ (p :: ps).flatten).take w.limit := by simp

/-- C4: for the shell and interpreted-script executors, captured stdout and
stderr each never exceed `maxOutputBytes` = 1 MiB; whatever byte chunks the
process writes, the retained content is exactly the 1 MiB prefix of the full
byte stream (so the prefix is uncorrupted and everything beyond the cap is
discarded), and no write ever reports an error. -/
theorem C4_output_cap :
    maxOutputBytes = 1048576 ∧
    (∀ ps : List (List Nat),
      (writeAll { buf := [], limit := maxOutputBytes } ps).buf
        = ps.flatten.take maxOutputBytes) ∧
    (∀ ps : List (List Nat),
      (writeAll { buf := [], limit := maxOutputBytes } ps).buf.length ≤ maxOutputBytes) ∧
    (∀ (w : limitedWriter) (p : List Nat), (w.write p).err = none) := by
  refine ⟨rfl, ?_, ?_, limitedWriter_write_err⟩
  · intro ps
    have := writeAll_buf ps { buf := [], limit := maxOutputBytes } (by simp)
    simpa using this
  · intro ps
    have := writeAll_buf ps { buf := [], limit := maxOutputBytes } (by simp)
    simp only [List.nil_append] at this
    rw [this, List.length_take]
    omega

end LimitedWriterTheorems

section ExtractionTheorems

/-- C6: output extraction is idempotent on already-clean JSON. Extracting
from the bare object text yields exactly that object; extracting from the
same object inside a json-tagged fenced block yields the same value; and
extracting from text containing no opening brace fails with the descriptive
no-object error and never returns any map. -/
theorem C6_extraction_idempotent :
    ExtractJSONFromOutput "\x7b\"a\":1\x7d" = .ok [(['a'], JValue.num ['1'])] ∧
    ExtractJSONFromOutput "```json\n\x7b\"a\":1\x7d\n```" =
      ExtractJSONFromOutput "\x7b\"a\":1\x7d" ∧
    ExtractJSONFromOutput "no json here" = .error .noJsonObjectFound ∧
    extractErrorMessage .noJsonObjectFound = "no JSON object found in output" ∧
    ∀ m, ExtractJSONFromOutput "no json here" ≠ .ok m := by
  refine ⟨rfl, rfl, rfl, rfl, ?_⟩
  intro m h
  rw [show ExtractJSONFromOutput "no json here" = .error .noJsonObjectFound from rfl] at h
  exact Except.noConfusion h

/-- C10: the brace scan counts raw brace bytes even inside JSON string
literals. The text consisting of the single valid JSON object whose "a" field
is the one-character string containing a closing brace does unmarshal as that
object, but extraction truncates the candidate at the in-string brace and
fails with a parse error instead of returning the parsed object. -/
theorem C10_brace_scan_in_strings :
    jsonUnmarshalObject ("\x7b\"a\":\"\x7d\"\x7d".data) =
      .ok [(['a'], JValue.str [rbrace])] ∧
    extractCandidate "\x7b\"a\":\"\x7d\"\x7d" =
      .ok [lbrace, '"', 'a', '"', ':', '"', rbrace] ∧
    ExtractJSONFromOutput "\x7b\"a\":\"\x7d\"\x7d" =
      .error (.parseFailed "unexpected end of JSON input") ∧
    ∀ m, ExtractJSONFromOutput "\x7b\"a\":\"\x7d\"\x7d" ≠ .ok m := by
  refine ⟨rfl, rfl, rfl, ?_⟩
  intro m h
  rw [show ExtractJSONFromOutput "\x7b\"a\":\"\x7d\"\x7d" =
        .error (.parseFailed "unexpected end of JSON input") from rfl] at h
  exact Except.noConfusion h

/-- Witness for C6: the no-brace text never yields any map, at the empty map. -/
theorem C6_extraction_idempotent_witness :
    ExtractJSONFromOutput "no json here" ≠ .ok [] :=
  C6_extraction_idempotent.2.2.2.2 []

/-- Witness for C10: the truncating input never yields any map, at the empty
map. -/
theorem C10_brace_scan_in_strings_witness :
    ExtractJSONFromOutput "\x7b\"a\":\"\x7d\"\x7d" ≠ .ok [] :=
  C10_brace_scan_in_strings.2.2.2 []

end ExtractionTheorems

section LifecycleTheorems

/-- C2: for every entity whose fetched dependency summary reports unmet
dependencies, or whose resolved inputs fail validation against a present
input schema, `executeEntity` returns a precondition (infrastructure) error
with only the fetch call on the wire: start-execution is never called, so
zero runs are created on the server. -/
theorem C2_preconditions_create_no_run (entityID agentID : String)
    (o : LifecycleOracle) (resp : EntityFetchResponse)
    (hfetch : o.fetch = .ok resp)
    (hpre : resp.dependenciesStatus.allMet = false ∨
      (resp.entity.inputSchemaPresent = true ∧ o.inputSchemaVerdict.isSome = true)) :
    (executeEntity entityID agentID o).1 = [ApiCall.fetchEntityForExecution entityID] ∧
    (∃ m, (executeEntity entityID agentID o).2 = .infraError m) ∧
    ∀ e2 m2 a2, ApiCall.startExecution e2 m2 a2 ∉ (executeEntity entityID agentID o).1 := by
  by_cases hdep : resp.dependenciesStatus.allMet = true
  · rcases hpre with h | ⟨hschema, hver⟩
    · rw [hdep] at h
      exact absurd h (by simp)
    · obtain ⟨msg, hmsg⟩ := Option.isSome_iff_exists.mp hver
      have hexec : executeEntity entityID agentID o =
          ([ApiCall.fetchEntityForExecution entityID],
           .infraError ("input validation failed: " ++ msg)) := by
        simp [executeEntity, hfetch, hdep, hschema, hmsg]
      rw [hexec]
      refine ⟨rfl, ⟨_, rfl⟩, ?_⟩
      intro e2 m2 a2
      simp
  · have hdep2 : resp.dependenciesStatus.allMet = false := by
      revert hdep
      cases resp.dependenciesStatus.allMet <;> simp
    have hexec : executeEntity entityID agentID o =
        ([ApiCall.fetchEntityForExecution entityID],
         .infraError ("dependencies not met: " ++
           String.intercalate ", " resp.dependenciesStatus.pending)) := by
      simp [executeEntity, hfetch, hdep2]
    rw [hexec]
    refine ⟨rfl, ⟨_, rfl⟩, ?_⟩
    intro e2 m2 a2
    simp

/-- The fetch response used by the C2 witness: dependencies unmet. -/
def c2Resp : EntityFetchResponse :=
  { entity := { executionMode := "BASH", code := some "echo hi",
                inputSchemaPresent := false, outputSchemaPresent := false },
    dependenciesStatus := { allMet := false, pending := ["dep1"] } }

/-- The oracle used by the C2 witness. -/
def c2Oracle : LifecycleOracle :=
  { fetch := .ok c2Resp,
    inputSchemaVerdict := none,
    start := .ok { executionID := "run-1", attemptNumber := 1 },
    cmdOutcome := .finished .exitZero, llmOutcome := .exitZero,
    capturedStdout := "", capturedStderr := "",
    outputSchemaVerdict := none, complete := .ok () }

/-- Witness for C2 at a concrete unmet-dependencies oracle. -/
theorem C2_preconditions_create_no_run_witness :
    (executeEntity "ent" "agent" c2Oracle).1 = [ApiCall.fetchEntityForExecution "ent"] ∧
    (∃ m, (executeEntity "ent" "agent" c2Oracle).2 = .infraError m) ∧
    ∀ e2 m2 a2, ApiCall.startExecution e2 m2 a2 ∉ (executeEntity "ent" "agent" c2Oracle).1 :=
  C2_preconditions_create_no_run "ent" "agent" c2Oracle c2Resp rfl (Or.inl rfl)

/-- C5: for every entity in ask-user mode, once the run is created by
start-execution the lifecycle returns the distinguished `ErrAskUserSkipped`
signal (success = false paired with the skip error, not an ordinary outcome):
the trace is exactly the fetch and the start, and complete-execution is never
called for that run, leaving it in Running state. -/
theorem C5_ask_user_skip (entityID agentID : String) (o : LifecycleOracle)
    (resp : EntityFetchResponse) (sr : ExecutionStartResponse)
    (hfetch : o.fetch = .ok resp)
    (hdeps : resp.dependenciesStatus.allMet = true)
    (hinput : (if resp.entity.inputSchemaPresent then o.inputSchemaVerdict else none) = none)
    (hstart : o.start = .ok sr)
    (hmode : resp.entity.executionMode = ExecutionModeAskUser) :
    (executeEntity entityID agentID o).2 = .askUserSkipped ∧
    (executeEntity entityID agentID o).1 =
      [ApiCall.fetchEntityForExecution entityID,
       ApiCall.startExecution entityID ExecutionModeAskUser agentID] ∧
    ∀ rid req, ApiCall.completeExecution rid req ∉ (executeEntity entityID agentID o).1 := by
  have hexec : executeEntity entityID agentID o =
      ([ApiCall.fetchEntityForExecution entityID,
        ApiCall.startExecution entityID ExecutionModeAskUser agentID], .askUserSkipped) := by
    simp [executeEntity, hfetch, hdeps, hinput, hstart, hmode]
  rw [hexec]
  refine ⟨rfl, rfl, ?_⟩
  intro rid req
  simp

/-- The fetch response used by the C5 witness: an ask-user entity. -/
def c5Resp : EntityFetchResponse :=
  { entity := { executionMode := ExecutionModeAskUser, code := none,
                inputSchemaPresent := false, outputSchemaPresent := false },
    dependenciesStatus := { allMet := true, pending := [] } }

/-- The oracle used by the C5 witness. -/
def c5Oracle : LifecycleOracle :=
  { fetch := .ok c5Resp,
    inputSchemaVerdict := none,
    start := .ok { executionID := "run-5", attemptNumber := 1 },
    cmdOutcome := .finished .exitZero, llmOutcome := .exitZero,
    capturedStdout := "", capturedStderr := "",
    outputSchemaVerdict := none, complete := .ok () }

/-- Witness for C5 at a concrete ask-user oracle. -/
theorem C5_ask_user_skip_witness :
    (executeEntity "ent" "agent" c5Oracle).2 = .askUserSkipped ∧
    (executeEntity "ent" "agent" c5Oracle).1 =
      [ApiCall.fetchEntityForExecution "ent",
       ApiCall.startExecution "ent" ExecutionModeAskUser "agent"] ∧
    ∀ rid req, ApiCall.completeExecution rid req ∉ (executeEntity "ent" "agent" c5Oracle).1 :=
  C5_ask_user_skip "ent" "agent" c5Oracle c5Resp
    { executionID := "run-5", attemptNumber := 1 } rfl rfl rfl rfl rfl

/-- The completion status is SUCCESS exactly when the backend reported
success, whatever the structured output and validation record are. -/
theorem buildCompleteRequest_status (r : ExecutionResult)
    (so : Option (List (List Char × JValue))) (rec : Option ValidationRecord) :
    (buildCompleteRequest r so rec).status = .success ↔ r.success = true := by
  cases hr : r.success <;> simp [buildCompleteRequest, hr]

/-- Every completion request issued by `executeEntity` is built by
`buildCompleteRequest` from the dispatched backend result, so its status is
SUCCESS exactly when that backend result succeeded. -/
theorem executeEntity_complete_status (o : LifecycleOracle) (eID aID rid : String)
    (req : ExecutionCompleteRequest)
    (hmem : ApiCall.completeExecution rid req ∈ (executeEntity eID aID o).1) :
    ∃ resp r, o.fetch = .ok resp ∧ dispatchExecution resp.entity o = some r ∧
      req = buildCompleteRequest r
        (outputSchemaStep r resp.entity.outputSchemaPresent o.outputSchemaVerdict).1
        (outputSchemaStep r resp.entity.outputSchemaPresent o.outputSchemaVerdict).2 ∧
      (req.status = .success ↔ r.success = true) := by
  unfold executeEntity at hmem
  cases hf : o.fetch with
  | error m => rw [hf] at hmem; simp at hmem
  | ok resp =>
    rw [hf] at hmem
    by_cases hdep : resp.dependenciesStatus.allMet = true
    · simp only [hdep, Bool.not_true, Bool.false_eq_true, if_false, ite_false] at hmem
      cases hiv : (if resp.entity.inputSchemaPresent then o.inputSchemaVerdict else none) with
      | some msg => rw [hiv] at hmem; simp at hmem
      | none =>
        rw [hiv] at hmem
        cases hs : o.start with
        | error m => rw [hs] at hmem; simp at hmem
        | ok sr =>
          rw [hs] at hmem
          by_cases hm : resp.entity.executionMode = ExecutionModeAskUser
          · simp [hm] at hmem
          · simp only [hm, if_false, ite_false] at hmem
            cases hd : dispatchExecution resp.entity o with
            | none => rw [hd] at hmem; simp at hmem
            | some r =>
              rw [hd] at hmem
              cases hc : o.complete with
              | error m =>
                rw [hc] at hmem
                simp at hmem
                obtain ⟨hrid, hreq⟩ := hmem
                exact ⟨resp, r, rfl, hd, hreq, by
                  rw [hreq]; exact buildCompleteRequest_status r _ _⟩
              | ok u =>
                rw [hc] at hmem
                simp at hmem
                obtain ⟨hrid, hreq⟩ := hmem
                exact ⟨resp, r, rfl, hd, hreq, by
                  rw [hreq]; exact buildCompleteRequest_status r _ _⟩
    · have hdep2 : resp.dependenciesStatus.allMet = false := by
        revert hdep
        cases resp.dependenciesStatus.allMet <;> simp
      simp [hdep2] at hmem

/-- C3: for every completed run the reported terminal status is SUCCESS iff
the backend reported success. Output-extraction failure degrades to a record
with WARN outcome and WARNING severity, and output-schema validation failure
degrades to a record with FAIL outcome, and neither changes a backend-success
completion away from SUCCESS; more generally, every completion request issued
by `executeEntity` carries SUCCESS exactly when the dispatched backend result
succeeded. -/
theorem C3_terminal_status_backend_only :
    (∀ (r : ExecutionResult) (so : Option (List (List Char × JValue)))
       (rec : Option ValidationRecord),
      (buildCompleteRequest r so rec).status = .success ↔ r.success = true) ∧
    (∀ (r : ExecutionResult) (verdict : Option String) (e : ExtractError),
      r.success = true → ExtractJSONFromOutput r.stdout = .error e →
      (outputSchemaStep r true verdict).2 =
        some { validationType := "OUTPUT_SCHEMA", outcome := .warn, severity := .warning,
               target := "output_schema",
               failureReason :=
                 some ("Failed to extract structured output: " ++ extractErrorMessage e) } ∧
      (buildCompleteRequest r (outputSchemaStep r true verdict).1
        (outputSchemaStep r true verdict).2).status = .success) ∧
    (∀ (r : ExecutionResult) (msg : String) (flds : List (List Char × JValue)),
      r.success = true → ExtractJSONFromOutput r.stdout = .ok flds →
      (outputSchemaStep r true (some msg)).2 =
        some { validationType := "OUTPUT_SCHEMA", outcome := .fail, severity := .warning,
               target := "output_schema", failureReason := some msg } ∧
      (buildCompleteRequest r (outputSchemaStep r true (some msg)).1
        (outputSchemaStep r true (some msg)).2).status = .success) ∧
    (∀ (o : LifecycleOracle) (eID aID rid : String) (req : ExecutionCompleteRequest),
      ApiCall.completeExecution rid req ∈ (executeEntity eID aID o).1 →
      ∃ resp r, o.fetch = .ok resp ∧ dispatchExecution resp.entity o = some r ∧
        (req.status = .success ↔ r.success = true)) := by
  refine ⟨buildCompleteRequest_status, ?_, ?_, ?_⟩
  · intro r verdict e hr hext
    refine ⟨?_, ?_⟩
    · simp [outputSchemaStep, hr, hext]
    · rw [buildCompleteRequest_status]
      exact hr
  · intro r msg flds hr hext
    refine ⟨?_, ?_⟩
    · simp [outputSchemaStep, hr, hext]
    · rw [buildCompleteRequest_status]
      exact hr
  · intro o eID aID rid req hmem
    obtain ⟨resp, r, hf, hd, _, hiff⟩ := executeEntity_complete_status o eID aID rid req hmem
    exact ⟨resp, r, hf, hd, hiff⟩

/-- A backend result whose stdout contains no JSON object (C3 witness). -/
def c3ResNoJson : ExecutionResult :=
  { success := true, stdout := "no json here", stderr := "", exitCode := 0, error := none }

/-- A backend result whose stdout is a clean JSON object (C3 witness). -/
def c3ResJson : ExecutionResult :=
  { success := true, stdout := "\x7b\"a\":1\x7d", stderr := "", exitCode := 0, error := none }

/-- The fetch response used by the C3 witness: a plain bash entity. -/
def c3Resp : EntityFetchResponse :=
  { entity := { executionMode := "BASH", code := some "true",
                inputSchemaPresent := false, outputSchemaPresent := false },
    dependenciesStatus := { allMet := true, pending := [] } }

/-- The oracle used by the C3 witness: a full successful lifecycle. -/
def c3Oracle : LifecycleOracle :=
  { fetch := .ok c3Resp,
    inputSchemaVerdict := none,
    start := .ok { executionID := "run-3", attemptNumber := 1 },
    cmdOutcome := .finished .exitZero, llmOutcome := .exitZero,
    capturedStdout := "", capturedStderr := "",
    outputSchemaVerdict := none, complete := .ok () }

/-- The completion request issued by the C3 witness oracle. -/
def c3ReqW : ExecutionCompleteRequest :=
  buildCompleteRequest (ExecuteBashWithContext (some "true") (.finished .exitZero) "" "")
    none none

/-- Witness for C3: the extraction-failure and schema-failure record shapes
at concrete results, and the trace part at a concrete completed run. -/
theorem C3_terminal_status_backend_only_witness :
    (c3ResNoJson.success = true ∧
      ExtractJSONFromOutput c3ResNoJson.stdout = .error .noJsonObjectFound ∧
      (outputSchemaStep c3ResNoJson true (some "v")).2 =
        some { validationType := "OUTPUT_SCHEMA", outcome := .warn, severity := .warning,
               target := "output_schema",
               failureReason :=
                 some ("Failed to extract structured output: " ++
                   extractErrorMessage .noJsonObjectFound) } ∧
      (buildCompleteRequest c3ResNoJson (outputSchemaStep c3ResNoJson true (some "v")).1
        (outputSchemaStep c3ResNoJson true (some "v")).2).status = .success) ∧
    (c3ResJson.success = true ∧
      ExtractJSONFromOutput c3ResJson.stdout = .ok [(['a'], JValue.num ['1'])] ∧
      (outputSchemaStep c3ResJson true (some "violation")).2 =
        some { validationType := "OUTPUT_SCHEMA", outcome := .fail, severity := .warning,
               target := "output_schema", failureReason := some "violation" } ∧
      (buildCompleteRequest c3ResJson (outputSchemaStep c3ResJson true (some "violation")).1
        (outputSchemaStep c3ResJson true (some "violation")).2).status = .success) ∧
    (ApiCall.completeExecution "run-3" c3ReqW ∈ (executeEntity "ent" "agent" c3Oracle).1 ∧
      ∃ resp r, c3Oracle.fetch = .ok resp ∧ dispatchExecution resp.entity c3Oracle = some r ∧
        (c3ReqW.status = .success ↔ r.success = true)) := by
  have h1 := C3_terminal_status_backend_only.2.1 c3ResNoJson (some "v")
    .noJsonObjectFound rfl rfl
  have h2 := C3_terminal_status_backend_only.2.2.1 c3ResJson "violation"
    [(['a'], JValue.num ['1'])] rfl rfl
  have hmem : ApiCall.completeExecution "run-3" c3ReqW ∈
      (executeEntity "ent" "agent" c3Oracle).1 := by
    rw [show (executeEntity "ent" "agent" c3Oracle).1 =
      [ApiCall.fetchEntityForExecution "ent",
       ApiCall.startExecution "ent" "BASH" "agent",
       ApiCall.completeExecution "run-3" c3ReqW] from rfl]
    exact List.mem_cons_of_mem _ (List.mem_cons_of_mem _ (List.mem_cons_self _ _))
  have h3 := C3_terminal_status_backend_only.2.2.2 c3Oracle "ent" "agent" "run-3" c3ReqW hmem
  exact ⟨⟨rfl, rfl, h1.1, h1.2⟩, ⟨rfl, rfl, h2.1, h2.2⟩, hmem, h3⟩

end LifecycleTheorems

section ProcessTheorems

/-- Whether one child return increments `tasksExecuted`: no error (or the
ask-user skip) together with success. -/
def countedAsExecuted (res : ChildResult) : Bool :=
  match res.err with
  | some (.execError _) => false
  | _ => res.success

/-- The error message a child return contributes to the driver's `lastError`
(the ask-user skip contributes nothing). -/
def childErrMsg (res : ChildResult) : Option String :=
  match res.err with
  | some (.execError m) => some m
  | _ => none

/-- Overwrite an optional value only when an update is present. -/
def overrideOpt (base upd : Option String) : Option String :=
  match upd with
  | some m => some m
  | none => base

/-- The last error message contributed by a list of child returns. -/
def lastChildError : List (String × ChildResult) → Option String
  | [] => none
  | c :: rest => overrideOpt (childErrMsg c.2) (lastChildError rest)

theorem overrideOpt_none_left (x : Option String) : overrideOpt none x = x := by
  cases x <;> rfl

theorem overrideOpt_assoc (a b x : Option String) :
    overrideOpt (overrideOpt a b) x = overrideOpt a (overrideOpt b x) := by
  cases x <;> rfl

theorem applyChild_fields (st : ProcessLoopState) (res : ChildResult) :
    (applyChild st res).interrupted = st.interrupted ∧
    (applyChild st res).fetches = st.fetches ∧
    (applyChild st res).executed = st.executed ∧
    (applyChild st res).lastError = overrideOpt st.lastError (childErrMsg res) ∧
    (applyChild st res).tasksExecuted =
      st.tasksExecuted + (if countedAsExecuted res then 1 else 0) := by
  obtain ⟨succ, err⟩ := res
  rcases err with _ | ce
  · cases succ <;> simp [applyChild, countedAsExecuted, childErrMsg, overrideOpt]
  · cases ce with
    | askUserSkipped =>
      cases succ <;> simp [applyChild, countedAsExecuted, childErrMsg, overrideOpt]
    | execError m =>
      simp [applyChild, countedAsExecuted, childErrMsg, overrideOpt]

/-- Running the loop without cancellation over a list of child tasks followed
by exhaustion: every child is executed in order, successful children are
counted, the last contributed error wins, and one fetch happens per child
plus the final empty fetch. -/
theorem processLoop_children (children : List (String × ChildResult))
    (st : ProcessLoopState) :
    processLoop none ((children.map fun c => LoopFetch.task c.1 c.2) ++ [LoopFetch.noTask]) st =
      { tasksExecuted := st.tasksExecuted +
          (children.filter fun c => countedAsExecuted c.2).length,
        lastError := overrideOpt st.lastError (lastChildError children),
        interrupted := st.interrupted,
        executed := st.executed ++ children.map (fun c => c.1),
        fetches := st.fetches + children.length + 1 } := by
  induction children generalizing st with
  | nil =>
    simp [processLoop, lastChildError, overrideOpt]
  | cons c rest ih =>
    obtain ⟨id, res⟩ := c
    simp only [List.map_cons, List.cons_append, processLoop, Option.map_none', List.append_eq]
    rw [ih]
    obtain ⟨hi, hf, he, hl, ht⟩ :=
      applyChild_fields { st with fetches := st.fetches + 1, executed := st.executed ++ [id] } res
    simp only [ProcessLoopState.mk.injEq]
    refine ⟨?_, ?_, ?_, ?_, ?_⟩
    · rw [ht]
      simp only [List.filter_cons]
      by_cases hc : countedAsExecuted res = true
      · simp [hc]
        omega
      · simp [hc]
    · rw [hl]
      simp only [lastChildError]
      rw [overrideOpt_assoc]
    · rw [hi]
    · rw [he]
      simp
    · rw [hf]
      simp
      omega

/-- The fetch answers of the C1 scenario: three children where child 2 exits
nonzero (so its `executeEntity` returned `(false, nil)`), then exhaustion. -/
def c1Fetches : List LoopFetch :=
  [ .task "child1" { success := true, err := none },
    .task "child2" { success := false, err := none },
    .task "child3" { success := true, err := none },
    .noTask ]

/-- The fetch response of the failing child in the C1 scenario. -/
def c1ChildResp : EntityFetchResponse :=
  { entity := { executionMode := "BASH", code := some "exit 2",
                inputSchemaPresent := false, outputSchemaPresent := false },
    dependenciesStatus := { allMet := true, pending := [] } }

/-- The oracle of the failing child in the C1 scenario: the shell exits 2 and
completion reporting succeeds. -/
def c1ChildOracle : LifecycleOracle :=
  { fetch := .ok c1ChildResp,
    inputSchemaVerdict := none,
    start := .ok { executionID := "run-c2", attemptNumber := 1 },
    cmdOutcome := .finished (.exitError 2), llmOutcome := .exitZero,
    capturedStdout := "", capturedStderr := "",
    outputSchemaVerdict := none, complete := .ok () }

/-- C1 counterexample: in the three-children scenario where child 2 exits
nonzero, `executeEntity` for that child returns `(false, nil)` — an ordinary
execution failure, not an error — so the driver records no last error: all
three children execute and `tasksExecuted` is 2 as the claim says, but the
Process run completes with status SUCCESS, not the claimed FAILED. -/
theorem C1_counterexample_nonzero_child :
    (executeEntity "child2" "agent" c1ChildOracle).2 = .ok false ∧
    (runProcessExecution none c1Fetches).1.executed = ["child1", "child2", "child3"] ∧
    (runProcessExecution none c1Fetches).1.tasksExecuted = 2 ∧
    (runProcessExecution none c1Fetches).2.tasksExecuted = 2 ∧
    (runProcessExecution none c1Fetches).2.status = .success ∧
    (runProcessExecution none c1Fetches).2.status ≠ .failed := by
  refine ⟨rfl, rfl, rfl, rfl, rfl, ?_⟩
  intro h
  rw [show (runProcessExecution none c1Fetches).2.status = .success from rfl] at h
  exact AttemptStatus.noConfusion h

/-- C1 (amended): running a Process over any list of children followed by
exhaustion, without cancellation, the driver executes every child (no early
stop on failures), `tasksExecuted` counts exactly the successfully completed
children, and the Process run completes with status FAILED (failure reason =
the last contributed error) exactly when some child surfaced an error from
the lifecycle other than the ask-user skip — an ordinary child execution
failure (`success=false` with nil error, e.g. a nonzero exit reported
normally) contributes no error, leaving the Process status SUCCESS. -/
theorem C1_amended_process_aggregation (children : List (String × ChildResult)) :
    (runProcessExecution none
        ((children.map fun c => LoopFetch.task c.1 c.2) ++ [LoopFetch.noTask])).1.executed
      = children.map (fun c => c.1) ∧
    (runProcessExecution none
        ((children.map fun c => LoopFetch.task c.1 c.2) ++ [LoopFetch.noTask])).1.tasksExecuted
      = (children.filter fun c => countedAsExecuted c.2).length ∧
    (runProcessExecution none
        ((children.map fun c => LoopFetch.task c.1 c.2) ++ [LoopFetch.noTask])).2.tasksExecuted
      = (children.filter fun c => countedAsExecuted c.2).length ∧
    (runProcessExecution none
        ((children.map fun c => LoopFetch.task c.1 c.2) ++ [LoopFetch.noTask])).2.interrupted
      = false ∧
    (runProcessExecution none
        ((children.map fun c => LoopFetch.task c.1 c.2) ++ [LoopFetch.noTask])).2.status
      = (match lastChildError children with | some _ => .failed | none => .success) ∧
    (runProcessExecution none
        ((children.map fun c => LoopFetch.task c.1 c.2) ++ [LoopFetch.noTask])).2.failureReason
      = lastChildError children := by
  have h := processLoop_children children
    { tasksExecuted := 0, lastError := none, interrupted := false, executed := [], fetches := 0 }
  simp only [runProcessExecution, h, overrideOpt_none_left, List.nil_append, Nat.zero_add]
  cases hl : lastChildError children <;> simp

/-- If the loop ends interrupted, cancellation was scheduled and exactly that
many fetches were performed before it was observed. -/
theorem processLoop_interrupted_cancel (fetches : List LoopFetch) :
    ∀ (cancel : Option Nat) (st : ProcessLoopState), st.interrupted = false →
    (processLoop cancel fetches st).interrupted = true →
    ∃ k, cancel = some k ∧ (processLoop cancel fetches st).fetches = st.fetches + k := by
  induction fetches with
  | nil =>
    intro cancel st h0 h1
    match cancel with
    | some 0 => exact ⟨0, rfl, by simp [processLoop]⟩
    | none =>
      rw [show processLoop none [] st = st from rfl] at h1
      rw [h0] at h1
      exact Bool.noConfusion h1
    | some (k + 1) =>
      rw [show processLoop (some (k + 1)) [] st = st from rfl] at h1
      rw [h0] at h1
      exact Bool.noConfusion h1
  | cons f rest ih =>
    intro cancel st h0 h1
    match cancel with
    | some 0 => exact ⟨0, rfl, by simp [processLoop]⟩
    | none =>
      cases f with
      | fetchError m =>
        rw [show processLoop none (LoopFetch.fetchError m :: rest) st =
          { st with fetches := st.fetches + 1, lastError := some m } from rfl] at h1
        rw [h0] at h1
        exact Bool.noConfusion h1
      | noTask =>
        rw [show processLoop none (LoopFetch.noTask :: rest) st =
          { st with fetches := st.fetches + 1 } from rfl] at h1
        rw [h0] at h1
        exact Bool.noConfusion h1
      | task id res =>
        have hunf : processLoop none (LoopFetch.task id res :: rest) st = processLoop none rest (applyChild { st with fetches := st.fetches + 1, executed := st.executed ++ [id] } res) := rfl
        rw [hunf] at h1
        obtain ⟨hi, _, _, _, _⟩ := applyChild_fields { st with fetches := st.fetches + 1, executed := st.executed ++ [id] } res
        obtain ⟨k1, hk1, _⟩ := ih none _ (by rw [hi]; exact h0) h1
        exact Option.noConfusion hk1
    | some (k + 1) =>
      cases f with
      | fetchError m =>
        rw [show processLoop (some (k + 1)) (LoopFetch.fetchError m :: rest) st =
          { st with fetches := st.fetches + 1, lastError := some m } from rfl] at h1
        rw [h0] at h1
        exact Bool.noConfusion h1
      | noTask =>
        rw [show processLoop (some (k + 1)) (LoopFetch.noTask :: rest) st =
          { st with fetches := st.fetches + 1 } from rfl] at h1
        rw [h0] at h1
        exact Bool.noConfusion h1
      | task id res =>
        have hunf : processLoop (some (k + 1)) (LoopFetch.task id res :: rest) st = processLoop (some k) rest (applyChild { st with fetches := st.fetches + 1, executed := st.executed ++ [id] } res) := rfl
        rw [hunf] at h1 ⊢
        obtain ⟨hi, hf, _, _, _⟩ := applyChild_fields { st with fetches := st.fetches + 1, executed := st.executed ++ [id] } res
        obtain ⟨k1, hk1, hkf⟩ := ih (some k) _ (by rw [hi]; exact h0) h1
        obtain rfl : k = k1 := Option.some.inj hk1
        refine ⟨k + 1, rfl, ?_⟩
        rw [hkf, hf]
        show st.fetches + 1 + k = st.fetches + (k + 1)
        omega

/-- C7: whenever cancellation is observed during a Process run, the driver
stops pulling tasks (the number of fetches equals the number of iterations
that ran before the cancellation check fired) and completes the Process run
with status ABANDONED — never FAILED — with the interrupted metric true. -/
theorem C7_cancellation_abandons (cancel : Option Nat) (fetches : List LoopFetch)
    (h : (runProcessExecution cancel fetches).1.interrupted = true) :
    (runProcessExecution cancel fetches).2.status = .abandoned ∧
    (runProcessExecution cancel fetches).2.interrupted = true ∧
    (runProcessExecution cancel fetches).2.status ≠ .failed ∧
    ∃ k, cancel = some k ∧ (runProcessExecution cancel fetches).1.fetches = k := by
  simp only [runProcessExecution] at h ⊢
  obtain ⟨k, hk, hf⟩ := processLoop_interrupted_cancel fetches cancel
    { tasksExecuted := 0, lastError := none, interrupted := false, executed := [], fetches := 0 }
    rfl h
  refine ⟨?_, ?_, ?_, ⟨k, hk, ?_⟩⟩
  · simp [h]
  · simp [h]
  · simp [h]
  · rw [hf]
    simp

/-- The fetch answers of the C7 witness: cancellation observed at the second
iteration. -/
def c7Fetches : List LoopFetch :=
  [.task "t1" { success := true, err := none }, .noTask]

/-- Witness for C7: a run cancelled after one executed child. -/
theorem C7_cancellation_abandons_witness :
    (runProcessExecution (some 1) c7Fetches).1.interrupted = true ∧
    ((runProcessExecution (some 1) c7Fetches).2.status = .abandoned ∧
     (runProcessExecution (some 1) c7Fetches).2.interrupted = true ∧
     (runProcessExecution (some 1) c7Fetches).2.status ≠ .failed ∧
     ∃ k, (some 1 : Option Nat) = some k ∧
       (runProcessExecution (some 1) c7Fetches).1.fetches = k) :=
  ⟨rfl, C7_cancellation_abandons (some 1) c7Fetches rfl⟩

end ProcessTheorems

section ResumeTheorems

/-- The invariant of the resume scheduler: the deduplication set holds no
duplicates, and for every identifier the number of launches equals the number
of finishes plus one exactly when the identifier is active. -/
def resumeInv (s : ResumeState) : Prop :=
  s.active.Nodup ∧
  ∀ id, s.launched.count id = s.finished.count id + (if id ∈ s.active then 1 else 0)

theorem resumeInv_init : resumeInv initResumeState := by
  constructor
  · simp [initResumeState]
  · intro id
    simp [initResumeState]

theorem resumeStep_inv (s : ResumeState) (e : ResumeEvent)
    (hok : eventOk s e = true) (hinv : resumeInv s) : resumeInv (resumeStep s e) := by
  obtain ⟨hnd, hcnt⟩ := hinv
  cases e with
  | attempt id =>
    by_cases hmem : id ∈ s.active
    · simpa [resumeStep, hmem, resumeInv] using ⟨hnd, hcnt⟩
    · constructor
      · simp only [resumeStep, hmem, if_false, ite_false]
        exact List.nodup_cons.mpr ⟨hmem, hnd⟩
      · intro id2
        simp only [resumeStep, hmem, if_false, ite_false, List.count_append,
          List.count_singleton, List.mem_cons]
        by_cases h2 : id2 = id
        · subst h2
          have hc := hcnt id2
          rw [if_neg hmem] at hc
          simp [hc]
        · have hne : ¬(id = id2) := fun hh => h2 hh.symm
          have hc := hcnt id2
          simp only [beq_iff_eq, hne, if_false, ite_false, Nat.add_zero]
          rw [hc]
          by_cases h3 : id2 ∈ s.active
          · simp [h3, h2]
          · simp [h3, h2]
  | finish id =>
    simp only [eventOk, decide_eq_true_eq] at hok
    constructor
    · exact hnd.erase id
    · intro id2
      simp only [resumeStep, List.count_append, List.count_singleton]
      by_cases h2 : id2 = id
      · subst h2
        have hc := hcnt id2
        rw [if_pos hok] at hc
        have hner : id2 ∉ s.active.erase id2 := by
          intro hmem2
          exact absurd (hnd.mem_erase_iff.mp hmem2).1 (by simp)
        rw [hc, if_neg hner]
        simp
      · have hne : ¬(id = id2) := fun hh => h2 hh.symm
        have hmem_iff : id2 ∈ s.active.erase id ↔ id2 ∈ s.active :=
          List.mem_erase_of_ne h2
        have hc := hcnt id2
        rw [hc]
        by_cases h3 : id2 ∈ s.active
        · rw [if_pos h3, if_pos (hmem_iff.mpr h3)]
          simp [hne]
        · rw [if_neg h3, if_neg (fun hh => h3 (hmem_iff.mp hh))]
          simp [hne]

theorem validFrom_inv (es : List ResumeEvent) :
    ∀ s, validFrom s es = true → resumeInv s → resumeInv (runResumeFrom s es) := by
  induction es with
  | nil =>
    intro s _ h
    exact h
  | cons e es ih =>
    intro s hv hinv
    simp only [validFrom, Bool.and_eq_true] at hv
    simp only [runResumeFrom, List.foldl_cons]
    exact ih _ hv.2 (resumeStep_inv s e hv.1 hinv)

theorem validFrom_append (es1 es2 : List ResumeEvent) (s : ResumeState) :
    validFrom s (es1 ++ es2) =
      (validFrom s es1 && validFrom (runResumeFrom s es1) es2) := by
  induction es1 generalizing s with
  | nil => simp [validFrom, runResumeFrom]
  | cons e es ih =>
    simp [validFrom, runResumeFrom, ih, Bool.and_assoc]

/-- C8: along every valid interleaving of the startup recovery scheduler, at
most one resumption per run identifier is ever in flight (the launch count
never exceeds the finish count by more than one — a run identifier already
being resumed is never launched twice), and a finishing resumption removes
its identifier from the deduplication set. -/
theorem C8_resume_dedup :
    (∀ es : List ResumeEvent, validResumeTrace es = true → ∀ id,
      (runResume es).launched.count id ≤ (runResume es).finished.count id + 1) ∧
    (∀ (es : List ResumeEvent) (id : String),
      validResumeTrace (es ++ [.finish id]) = true →
      id ∉ (runResume (es ++ [.finish id])).active) := by
  constructor
  · intro es hv id
    simp only [validResumeTrace] at hv
    obtain ⟨_, hcnt⟩ := validFrom_inv es initResumeState hv resumeInv_init
    simp only [runResume]
    rw [hcnt id]
    by_cases h : id ∈ (runResumeFrom initResumeState es).active
    · simp [h]
    · simp [h]
  · intro es id hv
    simp only [validResumeTrace] at hv
    rw [validFrom_append] at hv
    simp only [Bool.and_eq_true] at hv
    obtain ⟨hnd, _⟩ := validFrom_inv es initResumeState hv.1 resumeInv_init
    have hstep : runResume (es ++ [ResumeEvent.finish id]) =
        resumeStep (runResumeFrom initResumeState es) (ResumeEvent.finish id) := by
      simp [runResume, runResumeFrom, List.foldl_append]
    rw [hstep]
    simp only [resumeStep]
    intro hmem
    exact absurd (hnd.mem_erase_iff.mp hmem).1 (by simp)

/-- The event trace of the C8 witness: a duplicate attempt while the first
resumption is active is skipped; after it finishes, a fresh attempt launches
again. -/
def c8Events : List ResumeEvent :=
  [.attempt "r1", .attempt "r1", .finish "r1", .attempt "r1"]

/-- Witness for C8 at a concrete valid trace. -/
theorem C8_resume_dedup_witness :
    (validResumeTrace c8Events = true ∧
      (runResume c8Events).launched.count "r1" ≤
        (runResume c8Events).finished.count "r1" + 1) ∧
    (validResumeTrace (c8Events ++ [.finish "r1"]) = true ∧
      "r1" ∉ (runResume (c8Events ++ [.finish "r1"])).active) :=
  ⟨⟨rfl, C8_resume_dedup.1 c8Events rfl "r1"⟩,
   ⟨rfl, C8_resume_dedup.2 c8Events "r1" rfl⟩⟩

end ResumeTheorems

end Kindship
